import Mathlib

/-!
# Shallow embedding of the crypto_vol volatility pipeline

This file embeds the `/volatility/{symbol}` request handler of `src/main.py`:
the paginated candle fetch from the exchange, the normalization of the raw
records, the log-return and rolling-volatility computation, the response
assembly, and the surrounding `try`/`except` wrapper.

Modelling conventions:

* Python floats are modelled as real numbers; a float that the Python code
  leaves as NaN (a pandas missing value) is modelled as `none : Option ℝ`.
* The outbound exchange endpoint is modelled as an oracle
  `src : ℕ → List RawCandle` mapping the `startTime` of a request to the
  page of candles the exchange returns.  The remaining query parameters
  (symbol, interval, `endTime`, `limit = 1000`) are fixed over the life of
  one pipeline run and are folded into the oracle.
* The `while` loop is given explicit fuel; a result of `none` marks an
  execution that did not finish within the given fuel.
-/

/-- One raw kline record as the pipeline consumes it.  The Python frame keeps
twelve columns, but only `timestamp` (column 0, ms epoch) and the four price
columns cast to float are touched, and of those only `close` feeds the
estimator. -/
structure RawCandle where
  openTime : Nat
  openPrice : ℝ
  high : ℝ
  low : ℝ
  close : ℝ

/-- The pagination loop of `get_volatility` (src/main.py lines 53-68).  While
`current_start_ms < end_ms` it requests a page at `current_start_ms`; an empty
page breaks the loop, otherwise the page is appended and the cursor advances to
`int(data[-1][0]) + 300000` — the last returned open time plus a hard-coded
300000 ms, independent of the requested interval string. -/
def fetchLoop (src : ℕ → List RawCandle) : ℕ → ℕ → ℕ → Option (List RawCandle)
  | 0, cur, endMs => if cur < endMs then none else some []
  | fuel+1, cur, endMs =>
    if cur < endMs then
      match src cur with
      | [] => some []
      | c :: cs =>
        (fetchLoop src fuel (((c :: cs).getLast (List.cons_ne_nil c cs)).openTime + 300000) endMs).map
          (fun rest => c :: cs ++ rest)
    else some []

/-- Modelled from the spec: the duration in milliseconds of a requested
Binance interval string (`interval_duration_ms` in §4.1), which src/main.py
never computes. -/
def intervalDurationMs : String → Option ℕ
  | "1m" => some 60000
  | "3m" => some 180000
  | "5m" => some 300000
  | "15m" => some 900000
  | "30m" => some 1800000
  | "1h" => some 3600000
  | "4h" => some 14400000
  | "1d" => some 86400000
  | _ => none

/-- Modelled from the spec: the fetch loop as §4.1 describes it, advancing the
cursor by the requested interval's duration `intervalMs` instead of the fixed
300000 ms that the code uses. -/
def specFetchLoop (intervalMs : ℕ) (src : ℕ → List RawCandle) :
    ℕ → ℕ → ℕ → Option (List RawCandle)
  | 0, cur, endMs => if cur < endMs then none else some []
  | fuel+1, cur, endMs =>
    if cur < endMs then
      match src cur with
      | [] => some []
      | c :: cs =>
        (specFetchLoop intervalMs src fuel
            (((c :: cs).getLast (List.cons_ne_nil c cs)).openTime + intervalMs) endMs).map
          (fun rest => c :: cs ++ rest)
    else some []

/-- `df.sort_values('timestamp')`: ascending by the millisecond timestamp.
The pandas default sort kind fixes only the ascending order; `mergeSort` is
used here as a concrete ascending-by-timestamp sort, and none of the theorems
below depend on the relative order of records with equal timestamps. -/
def sortCandles (l : List RawCandle) : List RawCandle :=
  l.mergeSort (fun a b => decide (a.openTime ≤ b.openTime))

/-- `np.log(df['close'] / df['close'].shift(1))`: `shift(1)` makes row 0 NaN,
so the return at index 0 is undefined and the return at index `i ≥ 1` is
`log (close i / close (i-1))`. -/
noncomputable def logReturns (closes : List ℝ) : List (Option ℝ) :=
  match closes with
  | [] => []
  | _ :: rest =>
    none :: List.zipWith (fun prev curr => some (Real.log (curr / prev))) closes rest

/-- Sample variance with `ddof = 1`, the pandas default: sum of squared
deviations from the mean, divided by `n - 1`. -/
noncomputable def sampleVariance (xs : List ℝ) : ℝ :=
  (xs.map (fun x => (x - xs.sum / (xs.length : ℝ)) ^ 2)).sum / ((xs.length : ℝ) - 1)

/-- pandas `std()` over `n` present observations: NaN (here `none`) unless
`n ≥ 2` (for `n ≤ 1` the `ddof = 1` divisor makes the result NaN). -/
noncomputable def sampleStd (xs : List ℝ) : Option ℝ :=
  if 2 ≤ xs.length then some (Real.sqrt (sampleVariance xs)) else none

/-- The size-`w` observation window ending at index `i`: entries
`i+1-w, …, i` of the series. -/
def windowAt (w i : ℕ) (rets : List (Option ℝ)) : List (Option ℝ) :=
  (rets.take (i + 1)).drop (i + 1 - w)

/-- pandas `rolling(w).std()` pointwise over a series with missing values:
with the default `min_periods = w`, the value at index `i` is defined iff the
size-`w` window ending at `i` is complete and free of NaN, and is then the
`ddof = 1` standard deviation of the window. -/
noncomputable def rollingStd (w : ℕ) (rets : List (Option ℝ)) : List (Option ℝ) :=
  (List.range rets.length).map (fun i =>
    if w ≤ i + 1 ∧ (windowAt w i rets).all Option.isSome then
      sampleStd ((windowAt w i rets).filterMap id)
    else none)

/-- `window_size = intervals_per_hour = 60 // 5 = 12`, hard-coded in
src/main.py lines 88-90 under the 5-minute-candle assumption. -/
def windowSize : ℕ := 12

/-- The common scaling factor `np.sqrt(intervals_per_hour) * 10000` applied to
both the rolling and the aggregate standard deviation. -/
noncomputable def bpsScale : ℝ := Real.sqrt 12 * 10000

/-- `df['vol_1h_bps']`: the rolling standard deviation of the returns, scaled
to basis points (src/main.py lines 92-96).  Multiplying NaN keeps NaN, hence
the `Option.map`. -/
noncomputable def volSeries (closes : List ℝ) : List (Option ℝ) :=
  (rollingStd windowSize (logReturns closes)).map (Option.map (fun s => s * bpsScale))

/-- `overall_vol = df['returns'].std() * np.sqrt(intervals_per_hour) * 10000`:
pandas `Series.std()` skips NaN entries, so the aggregate is the standard
deviation of the defined returns, scaled like the rolling values. -/
noncomputable def overallVol (closes : List ℝ) : Option ℝ :=
  (sampleStd ((logReturns closes).filterMap id)).map (fun s => s * bpsScale)

/-- pandas `Series.max()` with the default `skipna=True`: the maximum of the
present values, NaN (here `none`) when every value is missing. -/
noncomputable def nanMax (xs : List (Option ℝ)) : Option ℝ :=
  (xs.filterMap id).max?

/-- pandas `Series.min()` with the default `skipna=True`. -/
noncomputable def nanMin (xs : List (Option ℝ)) : Option ℝ :=
  (xs.filterMap id).min?

/-- The response model of src/main.py lines 22-30.  Fields that the Python
code can leave as NaN floats are `Option ℝ`; `timestamps` keeps the sorted
millisecond timestamps (the code renders them as ISO-8601 strings). -/
structure VolatilityResponse where
  symbol : String
  average_vol : Option ℝ
  max_vol : Option ℝ
  min_vol : Option ℝ
  current_vol : Option ℝ
  timestamps : List Nat
  rolling_vols : List ℝ
  prices : List ℝ

/-- Response assembly for a nonempty candle set (src/main.py lines 73-108):
sort by timestamp, compute returns and rolling volatility, and fill the
response.  `rolling_vols` passes through `fillna(0)`, while `current_vol`
takes the raw `iloc[-1]` of the rolling series, and `max`/`min` skip NaN. -/
noncomputable def buildResponse (symbol : String) (allData : List RawCandle) :
    VolatilityResponse :=
  let sorted := sortCandles allData
  let closes := sorted.map RawCandle.close
  { symbol := symbol
    average_vol := overallVol closes
    max_vol := nanMax (volSeries closes)
    min_vol := nanMin (volSeries closes)
    current_vol := ((volSeries closes).getLast?).join
    timestamps := sorted.map RawCandle.openTime
    rolling_vols := (volSeries closes).map (fun o => o.getD 0)
    prices := closes }

/-- An HTTP error as carried by a raised `HTTPException`. -/
structure HTTPError where
  status : Nat
  detail : String

/-- `str(e)` of a starlette/fastapi `HTTPException`, which is
`f"{self.status_code}: {self.detail}"`. -/
def exceptionText (e : HTTPError) : String :=
  Nat.repr e.status ++ ": " ++ e.detail

/-- The blanket `except Exception as e: raise HTTPException(status_code=500,
detail=str(e))` at the end of `get_volatility` (src/main.py lines 113-114).
`HTTPException` subclasses `Exception`, so this clause also catches the
`HTTPException(404)` raised inside the `try` block and re-raises it as a 500
whose detail is the string `"404: ..."`. -/
def exceptAll : Except HTTPError VolatilityResponse → Except HTTPError VolatilityResponse
  | .ok v => .ok v
  | .error e => .error ⟨500, exceptionText e⟩

/-- The full `get_volatility` handler: run the pagination loop, raise 404 when
the accumulated candle list is empty, otherwise build the response; every
raised exception is filtered through the blanket `except` clause.  The outer
`Option` is the fuel bound of the loop (`none` = the loop did not finish). -/
noncomputable def getVolatility (symbol : String) (src : ℕ → List RawCandle)
    (fuel startMs endMs : ℕ) : Option (Except HTTPError VolatilityResponse) :=
  (fetchLoop src fuel startMs endMs).map (fun allData =>
    exceptAll
      (if allData.isEmpty then
        Except.error ⟨404, "No data found for " ++ symbol⟩
      else
        Except.ok (buildResponse symbol allData)))

/-- Concrete candles and exchange oracles used by the counterexamples and
witnesses below. -/
def candA : RawCandle := ⟨0, 1, 1, 1, 1⟩
def candB : RawCandle := ⟨60000, 2, 2, 2, 2⟩
def candC : RawCandle := ⟨0, 1, 1, 1, 1⟩
def candD : RawCandle := ⟨300000, 2, 2, 2, 2⟩

def srcTwo : ℕ → List RawCandle := fun t =>
  if t = 0 then [candA] else if t = 60000 then [candB] else []

def srcOne : ℕ → List RawCandle := fun t => if t = 0 then [candA] else []

def srcPair : ℕ → List RawCandle := fun t => if t = 0 then [candC, candD] else []

def okPart : Option (Except HTTPError VolatilityResponse) → Option VolatilityResponse
  | some (Except.ok v) => some v
  | _ => none

theorem logReturns_length (closes : List ℝ) : (logReturns closes).length = closes.length := by
  cases closes with
  | nil => simp [logReturns]
  | cons c rest => simp [logReturns, List.length_zipWith]

theorem logReturns_getElem_zero (closes : List ℝ) (h : closes ≠ []) :
    (logReturns closes)[0]? = some none := by
  cases closes with
  | nil => simp at h
  | cons c rest => simp [logReturns]

theorem logReturns_getElem_succ (closes : List ℝ) (i : ℕ) (h : i + 1 < closes.length) :
    (logReturns closes)[i + 1]? = some (some (Real.log (closes[i + 1] / closes[i]))) := by
  cases closes with
  | nil => simp at h
  | cons c rest =>
    have hi : i < rest.length := by simpa using h
    simp [logReturns, List.getElem?_zipWith, List.getElem?_eq_getElem, hi,
      Nat.lt_of_succ_lt h]

theorem logReturns_isSome (closes : List ℝ) (i : ℕ) (h1 : 1 ≤ i) (h : i < closes.length) :
    ((logReturns closes).getD i none).isSome = true := by
  obtain ⟨j, rfl⟩ : ∃ j, i = j + 1 := ⟨i - 1, by omega⟩
  rw [List.getD_eq_getElem?_getD, logReturns_getElem_succ closes j h]
  simp

theorem logReturns_countP (closes : List ℝ) :
    (logReturns closes).countP Option.isSome = closes.length - 1 := by
  cases closes with
  | nil => simp [logReturns]
  | cons c rest =>
    have hall : (List.zipWith (fun prev curr => some (Real.log (curr / prev)))
        (c :: rest) rest).countP Option.isSome =
        (List.zipWith (fun prev curr => some (Real.log (curr / prev))) (c :: rest) rest).length := by
      rw [List.countP_eq_length]
      intro a ha
      obtain ⟨n, hn, rfl⟩ := List.mem_iff_getElem.mp ha
      simp [List.getElem_zipWith]
    simp [logReturns, List.countP_cons, hall, List.length_zipWith]

theorem windowAt_length (w i : ℕ) (rets : List (Option ℝ)) (h : i < rets.length)
    (hw : w ≤ i + 1) : (windowAt w i rets).length = w := by
  simp [windowAt, List.length_drop, List.length_take]
  omega

theorem windowAt_getElem? (w i j : ℕ) (rets : List (Option ℝ)) (hw : w ≤ i + 1) (hj : j < w) :
    (windowAt w i rets)[j]? = rets[i + 1 - w + j]? := by
  simp [windowAt, List.getElem?_drop, List.getElem?_take]
  intro hc
  omega

theorem length_filterMap_id_of_all (l : List (Option ℝ)) (h : l.all Option.isSome = true) :
    (l.filterMap id).length = l.length := by
  induction l with
  | nil => simp
  | cons a t ih =>
    cases a with
    | none => simp at h
    | some x =>
      simp only [List.all_cons, Bool.and_eq_true] at h
      simp [List.filterMap_cons, ih h.2]

theorem rollingStd_getElem? (w : ℕ) (rets : List (Option ℝ)) (i : ℕ) (h : i < rets.length) :
    (rollingStd w rets)[i]? =
      some (if w ≤ i + 1 ∧ (windowAt w i rets).all Option.isSome then
        sampleStd ((windowAt w i rets).filterMap id)
      else none) := by
  simp [rollingStd, List.getElem?_map, List.getElem?_range h]

theorem window_all_isSome (closes : List ℝ) (i : ℕ) (h : i < closes.length) (hi : 12 ≤ i) :
    (windowAt 12 i (logReturns closes)).all Option.isSome = true := by
  rw [List.all_eq_true]
  intro x hx
  obtain ⟨j, hj, hxe⟩ := List.mem_iff_getElem.mp hx
  have hlen : i < (logReturns closes).length := by rw [logReturns_length]; exact h
  have hw : (12 : ℕ) ≤ i + 1 := by omega
  have hj12 : j < 12 := by rwa [windowAt_length 12 i _ hlen hw] at hj
  have hx? : (windowAt 12 i (logReturns closes))[j]? = some x := by
    rw [List.getElem?_eq_getElem hj, hxe]
  rw [windowAt_getElem? 12 i j _ hw hj12] at hx?
  obtain ⟨k, hke⟩ : ∃ k, i + 1 - 12 + j = k + 1 := ⟨i + 1 - 12 + j - 1, by omega⟩
  rw [hke] at hx?
  have hk : k + 1 < closes.length := by omega
  rw [logReturns_getElem_succ closes k hk] at hx?
  have := Option.some.inj hx?
  rw [← this]
  rfl

theorem window_not_all_isSome (closes : List ℝ) (i : ℕ) (h : i < closes.length)
    (hw : 12 ≤ i + 1) (hi : i < 12) :
    ¬ (windowAt 12 i (logReturns closes)).all Option.isSome = true := by
  intro hall
  have hlen : i < (logReturns closes).length := by rw [logReturns_length]; exact h
  have hne : closes ≠ [] := by
    intro he
    rw [he] at h
    simp at h
  have h0 : (windowAt 12 i (logReturns closes))[0]? = some none := by
    rw [windowAt_getElem? 12 i 0 _ hw (by omega)]
    have : i + 1 - 12 + 0 = 0 := by omega
    rw [this]
    exact logReturns_getElem_zero closes hne
  obtain ⟨hb, he⟩ := List.getElem?_eq_some_iff.mp h0
  rw [List.all_eq_true] at hall
  have := hall _ (List.getElem_mem hb)
  rw [he] at this
  simp at this

theorem volSeries_length (closes : List ℝ) : (volSeries closes).length = closes.length := by
  simp [volSeries, rollingStd, logReturns_length]

theorem volSeries_getElem? (closes : List ℝ) (i : ℕ) (h : i < closes.length) :
    (volSeries closes)[i]? =
      some (Option.map (fun s => s * bpsScale)
        (if windowSize ≤ i + 1 ∧ (windowAt windowSize i (logReturns closes)).all Option.isSome then
          sampleStd ((windowAt windowSize i (logReturns closes)).filterMap id)
        else none)) := by
  have hlen : i < (logReturns closes).length := by rw [logReturns_length]; exact h
  simp [volSeries, List.getElem?_map, rollingStd_getElem? windowSize _ i hlen]

theorem volSeries_isSome_iff (closes : List ℝ) (i : ℕ) (h : i < closes.length) :
    ((volSeries closes).getD i none).isSome = true ↔ 12 ≤ i := by
  have hlen : i < (logReturns closes).length := by rw [logReturns_length]; exact h
  rw [List.getD_eq_getElem?_getD, volSeries_getElem? closes i h]
  simp only [windowSize]
  constructor
  · intro hs
    by_contra hlt
    push_neg at hlt
    by_cases hw : (12 : ℕ) ≤ i + 1
    · rw [if_neg] at hs
      · simp at hs
      · intro ⟨_, hall⟩
        exact window_not_all_isSome closes i h hw hlt hall
    · rw [if_neg] at hs
      · simp at hs
      · intro ⟨hw2, _⟩
        exact hw hw2
  · intro hi
    have hw : (12 : ℕ) ≤ i + 1 := by omega
    have hall := window_all_isSome closes i h hi
    rw [if_pos ⟨hw, hall⟩]
    have hwl : (windowAt 12 i (logReturns closes)).length = 12 :=
      windowAt_length 12 i _ hlen hw
    have hfl : ((windowAt 12 i (logReturns closes)).filterMap id).length = 12 := by
      rw [length_filterMap_id_of_all _ hall, hwl]
    rw [sampleStd, if_pos (by rw [hfl]; norm_num)]
    simp

theorem volSeries_nonneg (closes : List ℝ) (i : ℕ) (x : ℝ)
    (hx : (volSeries closes).getD i none = some x) : 0 ≤ x := by
  rw [List.getD_eq_getElem?_getD] at hx
  by_cases h : i < closes.length
  · rw [volSeries_getElem? closes i h] at hx
    simp only [Option.getD_some, windowSize] at hx
    by_cases hc : (12 : ℕ) ≤ i + 1 ∧
        (windowAt 12 i (logReturns closes)).all Option.isSome
    · rw [if_pos hc] at hx
      rw [sampleStd] at hx
      by_cases h2 : 2 ≤ ((windowAt 12 i (logReturns closes)).filterMap id).length
      · rw [if_pos h2] at hx
        rw [show Option.map (fun s => s * bpsScale) (some (Real.sqrt (sampleVariance
          ((windowAt 12 i (logReturns closes)).filterMap id)))) = some (Real.sqrt (sampleVariance
          ((windowAt 12 i (logReturns closes)).filterMap id)) * bpsScale) from rfl] at hx
        have := Option.some.inj hx
        rw [← this, bpsScale]
        have h1 : (0 : ℝ) ≤ Real.sqrt 12 * 10000 := by positivity
        exact mul_nonneg (Real.sqrt_nonneg _) h1
      · rw [if_neg h2] at hx
        simp at hx
    · rw [if_neg hc] at hx
      simp at hx
  · have : closes.length ≤ i := by omega
    have hnone : (volSeries closes)[i]? = none := by
      rw [List.getElem?_eq_none_iff, volSeries_length]
      exact this
    rw [hnone] at hx
    simp at hx

theorem sortCandles_length (l : List RawCandle) : (sortCandles l).length = l.length := by
  simp [sortCandles, List.length_mergeSort]

theorem getVolatility_eq_ok (symbol : String) (src : ℕ → List RawCandle)
    (fuel st en : ℕ) (allData : List RawCandle)
    (hf : fetchLoop src fuel st en = some allData) (hne : allData ≠ []) :
    getVolatility symbol src fuel st en =
      some (Except.ok (buildResponse symbol allData)) := by
  simp [getVolatility, hf, exceptAll, List.isEmpty_eq_false.mpr hne]

/-- C1 (code_bug evidence): when the pagination loop completes with an empty
accumulated candle list, `get_volatility` raises `HTTPException(404)`, but the
blanket `except Exception` clause catches it and re-raises it as a 500 whose
detail is `str(e) = "404: No data found for FOO"` — so the inbound response has
status 500, not the 404 the claim and the spec state. -/
theorem c1_empty_result_becomes_500 :
    getVolatility "FOO" (fun _ => []) 1 0 1000 =
      some (Except.error ⟨500, "404: No data found for FOO"⟩) := rfl

/-- C2 counterexample: for the requested interval `"1m"` (duration 60000 ms)
the claim predicts the cursor advances by 60000 ms after a page, but the code
adds the fixed 300000 ms: on an oracle with a candle at open time 0 and one at
60000, the code's loop skips the second candle while the spec-modelled loop
collects it, so the two runs return different candle lists. -/
theorem c2_counterexample :
    intervalDurationMs "1m" = some 60000 ∧
    fetchLoop srcTwo 5 0 400000 = some [candA] ∧
    specFetchLoop 60000 srcTwo 5 0 400000 = some [candA, candB] ∧
    fetchLoop srcTwo 5 0 400000 ≠ specFetchLoop 60000 srcTwo 5 0 400000 := by
  refine ⟨rfl, rfl, rfl, fun h => ?_⟩
  injection h with h2
  simpa using congrArg List.length h2

/-- C2 amended: after a nonempty page the fetcher sets `current_start_ms` to
the last returned candle's open time plus the fixed 300000 ms (the 5-minute
duration, regardless of the requested interval string), and the loop stops when
`current_start_ms >= end_ms` or when a page is empty. -/
theorem c2_advance_fixed_300000 (src : ℕ → List RawCandle) (fuel cur endMs : ℕ) :
    (endMs ≤ cur → fetchLoop src (fuel + 1) cur endMs = some []) ∧
    (cur < endMs → src cur = [] → fetchLoop src (fuel + 1) cur endMs = some []) ∧
    (∀ c cs, cur < endMs → src cur = c :: cs →
      fetchLoop src (fuel + 1) cur endMs =
        (fetchLoop src fuel (((c :: cs).getLast (List.cons_ne_nil c cs)).openTime + 300000)
            endMs).map (fun rest => c :: cs ++ rest)) := by
  refine ⟨?_, ?_, ?_⟩
  · intro h
    simp only [fetchLoop]
    rw [if_neg (by omega)]
  · intro h hsrc
    simp only [fetchLoop]
    rw [if_pos h, hsrc]
  · intro c cs h hsrc
    simp only [fetchLoop]
    rw [if_pos h, hsrc]

/-- C9: whenever every nonempty returned page has a last open time at least
the `startTime` it was requested with, the cursor grows by at least 300000 ms
per iteration, so the pagination loop finishes within
`(end_ms - start_ms) / 300000 + 1` iterations: any fuel bound `fuel` with
`end_ms ≤ start_ms + 300000 * fuel` suffices. -/
theorem c9_pagination_terminates (src : ℕ → List RawCandle)
    (hpre : ∀ t c cs, src t = c :: cs →
      t ≤ ((c :: cs).getLast (List.cons_ne_nil c cs)).openTime) :
    ∀ fuel cur endMs, endMs ≤ cur + 300000 * fuel →
      (fetchLoop src fuel cur endMs).isSome = true := by
  intro fuel
  induction fuel with
  | zero =>
    intro cur endMs h
    simp only [fetchLoop]
    rw [if_neg (by omega)]
    rfl
  | succ f ih =>
    intro cur endMs h
    simp only [fetchLoop]
    by_cases hlt : cur < endMs
    · rw [if_pos hlt]
      cases hsrc : src cur with
      | nil => rfl
      | cons c cs =>
        have hlast := hpre cur c cs hsrc
        have hrec := ih (((c :: cs).getLast (List.cons_ne_nil c cs)).openTime + 300000) endMs
          (by omega)
        simpa using hrec
    · rw [if_neg hlt]
      rfl

/-- C5: for a nonempty series of N closes the return series has N entries of
which exactly N-1 are defined; the entry at index 0 is undefined and the entry
at index i ≥ 1 equals `ln (close i / close (i-1))`. -/
theorem c5_return_series (closes : List ℝ) (h : closes ≠ []) :
    (logReturns closes).length = closes.length ∧
    (logReturns closes).countP Option.isSome = closes.length - 1 ∧
    (logReturns closes).getD 0 (some 0) = none ∧
    ∀ i, 1 ≤ i → i < closes.length →
      (logReturns closes).getD i none =
        some (Real.log (closes.getD i 0 / closes.getD (i - 1) 0)) := by
  refine ⟨logReturns_length closes, logReturns_countP closes, ?_, ?_⟩
  · rw [List.getD_eq_getElem?_getD, logReturns_getElem_zero closes h]
    rfl
  · intro i h1 hi
    obtain ⟨j, rfl⟩ : ∃ j, i = j + 1 := ⟨i - 1, by omega⟩
    rw [List.getD_eq_getElem?_getD, logReturns_getElem_succ closes j hi]
    have hj : j < closes.length := by omega
    rw [List.getD_eq_getElem?_getD closes (j + 1) 0, List.getD_eq_getElem?_getD closes (j + 1 - 1) 0]
    have hj1 : j + 1 - 1 = j := rfl
    rw [hj1, List.getElem?_eq_getElem hi, List.getElem?_eq_getElem hj]
    rfl

theorem c5_return_series_witness :
    (logReturns [(1 : ℝ), 2, 4]).countP Option.isSome = 2 ∧
    (logReturns [(1 : ℝ), 2, 4]).getD 0 (some 0) = none ∧
    (logReturns [(1 : ℝ), 2, 4]).getD 1 none = some (Real.log (2 / 1)) := by
  have h := c5_return_series [(1 : ℝ), 2, 4] (by simp)
  exact ⟨by simpa using h.2.1, h.2.2.1, by simpa using h.2.2.2 1 (by norm_num) (by norm_num)⟩

/-- C6: the rolling volatility at index i of the series is defined iff
`i ≥ window_size` (with `window_size = 12`), and every defined rolling
volatility value is nonnegative. -/
theorem c6_rolling_defined_iff_nonneg (closes : List ℝ) (i : ℕ) (h : i < closes.length) :
    (((volSeries closes).getD i none).isSome = true ↔ windowSize ≤ i) ∧
    ∀ x, (volSeries closes).getD i none = some x → 0 ≤ x := by
  refine ⟨?_, fun x hx => volSeries_nonneg closes i x hx⟩
  simpa [windowSize] using volSeries_isSome_iff closes i h

theorem c6_rolling_defined_iff_nonneg_witness :
    ((volSeries (List.replicate 13 (1 : ℝ))).getD 12 none).isSome = true :=
  (c6_rolling_defined_iff_nonneg (List.replicate 13 (1 : ℝ)) 12 (by simp)).1.mpr (Nat.le_refl 12)

/-- C7: for every successful response, `average_vol` equals the standard
deviation over the entire (NaN-skipped) return series — not windowed —
multiplied by the same `sqrt(intervals_per_hour) * 10000` factor used for the
rolling values. -/
theorem c7_aggregate_vol (symbol : String) (src : ℕ → List RawCandle) (fuel st en : ℕ)
    (allData : List RawCandle) (r : VolatilityResponse)
    (hf : fetchLoop src fuel st en = some allData) (hne : allData ≠ [])
    (hr : getVolatility symbol src fuel st en = some (Except.ok r)) :
    r.average_vol =
      (sampleStd ((logReturns ((sortCandles allData).map RawCandle.close)).filterMap id)).map
        (fun v => v * bpsScale) := by
  have hok := getVolatility_eq_ok symbol src fuel st en allData hf hne
  rw [hr] at hok
  have h2 := Option.some.inj hok
  have h3 : r = buildResponse symbol allData := by
    cases h2
    rfl
  subst h3
  rfl

theorem c7_aggregate_vol_witness :
    (buildResponse "X" [candA]).average_vol =
      (sampleStd ((logReturns ((sortCandles [candA]).map RawCandle.close)).filterMap id)).map
        (fun v => v * bpsScale) :=
  c7_aggregate_vol "X" srcOne 2 0 1000 [candA] (buildResponse "X" [candA]) rfl (by simp) rfl

/-- C10: for every successful response, the `timestamps`, `rolling_vols` and
`prices` lists all have the length of the accumulated candle list. -/
theorem c10_output_lengths (symbol : String) (src : ℕ → List RawCandle) (fuel st en : ℕ)
    (allData : List RawCandle) (r : VolatilityResponse)
    (hf : fetchLoop src fuel st en = some allData) (hne : allData ≠ [])
    (hr : getVolatility symbol src fuel st en = some (Except.ok r)) :
    r.timestamps.length = allData.length ∧
    r.rolling_vols.length = allData.length ∧
    r.prices.length = allData.length := by
  have hok := getVolatility_eq_ok symbol src fuel st en allData hf hne
  rw [hr] at hok
  have h2 := Option.some.inj hok
  have h3 : r = buildResponse symbol allData := by
    cases h2
    rfl
  subst h3
  refine ⟨?_, ?_, ?_⟩
  · simp [buildResponse, sortCandles_length]
  · simp [buildResponse, volSeries_length, sortCandles_length]
  · simp [buildResponse, sortCandles_length]

theorem c10_output_lengths_witness :
    (buildResponse "X" [candA]).timestamps.length = [candA].length ∧
    (buildResponse "X" [candA]).rolling_vols.length = [candA].length ∧
    (buildResponse "X" [candA]).prices.length = [candA].length :=
  c10_output_lengths "X" srcOne 2 0 1000 [candA] (buildResponse "X" [candA]) rfl (by simp) rfl

/-- C3 amended: the transported `rolling_vols` list has every undefined point
replaced by 0, but `current_vol` is the raw last rolling value without the
null-to-zero rendering, so it is NaN (none) — not 0 — whenever the series is
shorter than `window_size + 1` closes. -/
theorem c3_current_vol_unfilled (symbol : String) (src : ℕ → List RawCandle) (fuel st en : ℕ)
    (allData : List RawCandle) (r : VolatilityResponse)
    (hf : fetchLoop src fuel st en = some allData) (hne : allData ≠ [])
    (hr : getVolatility symbol src fuel st en = some (Except.ok r)) :
    r.rolling_vols =
      (volSeries ((sortCandles allData).map RawCandle.close)).map (fun o => o.getD 0) ∧
    r.current_vol = ((volSeries ((sortCandles allData).map RawCandle.close)).getLast?).join ∧
    (allData.length < windowSize + 1 → r.current_vol = none) := by
  have hok := getVolatility_eq_ok symbol src fuel st en allData hf hne
  rw [hr] at hok
  have h2 := Option.some.inj hok
  have h3 : r = buildResponse symbol allData := by
    cases h2
    rfl
  subst h3
  refine ⟨rfl, rfl, ?_⟩
  intro hshort
  set closes := (sortCandles allData).map RawCandle.close with hcdef
  have hlen : closes.length = allData.length := by
    rw [hcdef, List.length_map, sortCandles_length]
  have hpos : 0 < allData.length := List.length_pos.mpr hne
  show ((volSeries closes).getLast?).join = none
  rw [List.getLast?_eq_getElem?, volSeries_length]
  have hidx : closes.length - 1 < closes.length := by omega
  cases hv : (volSeries closes)[closes.length - 1]? with
  | none => rfl
  | some v =>
    have hgd : (volSeries closes).getD (closes.length - 1) none = v := by
      rw [List.getD_eq_getElem?_getD, hv]
      rfl
    have hiff := volSeries_isSome_iff closes (closes.length - 1) hidx
    rw [hgd] at hiff
    have hnot : ¬ (12 : ℕ) ≤ closes.length - 1 := by
      simp only [windowSize] at hshort
      omega
    have hvnone : v = none := Option.not_isSome_iff_eq_none.mp (fun hs => hnot (hiff.mp hs))
    rw [hvnone]
    rfl

theorem c3_current_vol_unfilled_witness :
    (buildResponse "X" [candA]).rolling_vols =
      (volSeries ((sortCandles [candA]).map RawCandle.close)).map (fun o => o.getD 0) ∧
    (buildResponse "X" [candA]).current_vol =
      ((volSeries ((sortCandles [candA]).map RawCandle.close)).getLast?).join ∧
    (buildResponse "X" [candA]).current_vol = none := by
  have h := c3_current_vol_unfilled "X" srcOne 2 0 1000 [candA] (buildResponse "X" [candA]) rfl (by simp) rfl
  exact ⟨h.1, h.2.1, h.2.2 (by norm_num [windowSize])⟩

theorem sortCandles_singleton (c : RawCandle) : sortCandles [c] = [c] := by
  simp [sortCandles]

/-- C3 counterexample: on a single-candle fetch the zero-rendered last point
of `rolling_vols` is 0, yet `current_vol` is NaN (`none`), not 0 as the claim
states. -/
theorem c3_counterexample :
    (okPart (getVolatility "X" srcOne 2 0 1000)).map VolatilityResponse.current_vol =
      some none ∧
    (okPart (getVolatility "X" srcOne 2 0 1000)).map (fun r => r.rolling_vols.getLast?) =
      some (some 0) := by
  have hok : getVolatility "X" srcOne 2 0 1000 =
      some (Except.ok (buildResponse "X" [candA])) :=
    getVolatility_eq_ok "X" srcOne 2 0 1000 [candA] rfl (by simp)
  have hcv : (buildResponse "X" [candA]).current_vol = none := by
    show ((volSeries ((sortCandles [candA]).map RawCandle.close)).getLast?).join = none
    rw [sortCandles_singleton]
    rfl
  have hrv : (buildResponse "X" [candA]).rolling_vols = [0] := by
    show (volSeries ((sortCandles [candA]).map RawCandle.close)).map (fun o => o.getD 0) = [0]
    rw [sortCandles_singleton]
    rfl
  constructor
  · rw [hok]
    show some (buildResponse "X" [candA]).current_vol = some none
    rw [hcv]
  · rw [hok]
    show some ((buildResponse "X" [candA]).rolling_vols.getLast?) = some (some 0)
    rw [hrv]
    rfl

/-- C4 amended: `max_vol` and `min_vol` are the maximum and minimum over the
defined rolling values only (pandas `max`/`min` skip NaN), they are NaN (none)
when no rolling value is defined, and any defined `min_vol` is nonnegative; the
undefined leading points are not included as 0. -/
theorem c4_minmax_skip_undefined (symbol : String) (src : ℕ → List RawCandle) (fuel st en : ℕ)
    (allData : List RawCandle) (r : VolatilityResponse)
    (hf : fetchLoop src fuel st en = some allData) (hne : allData ≠ [])
    (hr : getVolatility symbol src fuel st en = some (Except.ok r)) :
    r.max_vol = nanMax (volSeries ((sortCandles allData).map RawCandle.close)) ∧
    r.min_vol = nanMin (volSeries ((sortCandles allData).map RawCandle.close)) ∧
    ∀ x, r.min_vol = some x → 0 ≤ x := by
  have hok := getVolatility_eq_ok symbol src fuel st en allData hf hne
  rw [hr] at hok
  have h2 := Option.some.inj hok
  have h3 : r = buildResponse symbol allData := by
    cases h2
    rfl
  subst h3
  refine ⟨rfl, rfl, ?_⟩
  intro x hx
  set closes := (sortCandles allData).map RawCandle.close with hcdef
  have hx2 : ((volSeries closes).filterMap id).min? = some x := hx
  have hmem : x ∈ (volSeries closes).filterMap id :=
    List.min?_mem (fun a b => min_choice a b) hx2
  obtain ⟨o, ho, hoe⟩ := List.mem_filterMap.mp hmem
  obtain ⟨n, hn, hne2⟩ := List.mem_iff_getElem.mp ho
  have hgd : (volSeries closes).getD n none = some x := by
    rw [List.getD_eq_getElem?_getD, List.getElem?_eq_getElem hn, hne2]
    exact hoe
  exact volSeries_nonneg closes n x hgd

theorem sortCandles_pair : sortCandles [candC, candD] = [candC, candD] := by
  simp [sortCandles, List.mergeSort, candC, candD]

theorem c4_minmax_skip_undefined_witness :
    (buildResponse "Y" [candC, candD]).max_vol =
      nanMax (volSeries ((sortCandles [candC, candD]).map RawCandle.close)) ∧
    (buildResponse "Y" [candC, candD]).min_vol =
      nanMin (volSeries ((sortCandles [candC, candD]).map RawCandle.close)) := by
  have h := c4_minmax_skip_undefined "Y" srcPair 2 0 1000 [candC, candD] (buildResponse "Y" [candC, candD])
    rfl (by simp) rfl
  exact ⟨h.1, h.2.1⟩

/-- C4 counterexample: on a two-candle fetch every rolling point is
undefined; the claim's zero-filled minimum is 0, but the code's `min_vol` is
NaN (`none`), not 0. -/
theorem c4_counterexample :
    (okPart (getVolatility "Y" srcPair 2 0 1000)).map VolatilityResponse.min_vol =
      some none ∧
    (okPart (getVolatility "Y" srcPair 2 0 1000)).map (fun r => r.rolling_vols.min?) =
      some (some 0) := by
  have hok : getVolatility "Y" srcPair 2 0 1000 =
      some (Except.ok (buildResponse "Y" [candC, candD])) :=
    getVolatility_eq_ok "Y" srcPair 2 0 1000 [candC, candD] rfl (by simp)
  have hmv : (buildResponse "Y" [candC, candD]).min_vol = none := by
    show nanMin (volSeries ((sortCandles [candC, candD]).map RawCandle.close)) = none
    rw [sortCandles_pair]
    rfl
  have hrv : (buildResponse "Y" [candC, candD]).rolling_vols = [0, 0] := by
    show (volSeries ((sortCandles [candC, candD]).map RawCandle.close)).map (fun o => o.getD 0) =
      [0, 0]
    rw [sortCandles_pair]
    rfl
  constructor
  · rw [hok]
    show some (buildResponse "Y" [candC, candD]).min_vol = some none
    rw [hmv]
  · rw [hok]
    show some ((buildResponse "Y" [candC, candD]).rolling_vols.min?) = some (some 0)
    rw [hrv]
    show some (some (min (0 : ℝ) 0)) = some (some 0)
    rw [min_self]

theorem c2_advance_fixed_300000_witness :
    fetchLoop srcTwo 5 0 400000 =
      (fetchLoop srcTwo 4 (([candA].getLast (List.cons_ne_nil candA [])).openTime + 300000)
          400000).map (fun rest => candA :: [] ++ rest) :=
  (c2_advance_fixed_300000 srcTwo 4 0 400000).2.2 candA [] (by norm_num) rfl

theorem c9_pagination_terminates_witness : (fetchLoop (fun _ => []) 1 0 200000).isSome = true :=
  c9_pagination_terminates (fun _ => []) (fun t c cs h => nomatch h) 1 0 200000 (by norm_num)
